import Mathlib

/-!
Verification development for the MIG-strategy resource labeling logic of
gpu-feature-discovery (`internal/lm/mig-strategy.go`).

The core decision logic (strategy resolution, validity checks, aggregation,
flavor naming) is translated from the Go source.  The device-query facade
(`internal/nvml`), the device partition inventory (`internal/mig`) and the
mechanical label-emission helpers are external collaborators that are not
part of the source fragment; they are modelled from the specification, as
noted in their doc comments.
-/

deriving instance DecidableEq for Except

namespace GFD

/-- Attributes of one MIG sub-device, as returned by the device query facade
(`nvml.Device.GetAttributes`): slice count and memory size in MB. -/
structure MigAttributes where
  GpuInstanceSliceCount : Nat
  MemorySizeMB : Nat
deriving Repr, DecidableEq

/-- Modelled from the spec: a partition sub-device handle of the device query
facade.  Reading its attributes is fallible (`AttributeReadError`). -/
structure MigDevice where
  getAttributes : Except String MigAttributes
deriving Repr, DecidableEq

/-- Modelled from the spec: one physical accelerator handle of the device
query facade.  All attribute reads are fallible queries: the display name
(`GetName`), the partitioning-enabled flag, and the ordered list of partition
sub-devices currently exposed. -/
structure Device where
  getName : Except String String
  migEnabled : Except String Bool
  migDevices : Except String (List MigDevice)
deriving Repr, DecidableEq

/-- Modelled from the spec: the device query facade (`nvml.Nvml`): a fallible
device count and a fallible device accessor by index. -/
structure Nvml where
  deviceCount : Except String Nat
  newDevice : Nat → Except String Device

/-- A facade exposing a fixed list of devices: count is the list length and
`newDevice i` returns the i-th device, failing out of range. -/
def Nvml.ofDevices (ds : List Device) : Nvml where
  deviceCount := .ok ds.length
  newDevice := fun i =>
    match ds.get? i with
    | some d => .ok d
    | none => .error "invalid device index"

/-! Strategy-name constants, from the source. -/

def MigStrategyNone : String := "none"
def MigStrategySingle : String := "single"
def MigStrategyMixed : String := "mixed"

/-! ### Device partition inventory (modelled from the spec)

The inventory collaborator (`mig.NewDeviceInfo` of pkg `internal/mig`, not in
the source fragment) classifies devices by the partitioning-enabled flag,
detects enabled-but-empty devices, and enumerates all partition sub-devices
across enabled devices, preserving discovery order. -/

/-- Modelled from the spec: enumerate devices `first, first+1, ...` (`fuel`
many) through the facade; any query failure aborts the pass. -/
def getDevicesFrom (nv : Nvml) : Nat → Nat → Except String (List Device)
  | _, 0 => .ok []
  | i, fuel + 1 =>
    match nv.newDevice i with
    | .error e => .error e
    | .ok d =>
      match getDevicesFrom nv (i + 1) fuel with
      | .error e => .error e
      | .ok ds => .ok (d :: ds)

/-- Modelled from the spec: the full ordered device list of one pass. -/
def getDevices (nv : Nvml) : Except String (List Device) :=
  match nv.deviceCount with
  | .error e => .error e
  | .ok n => getDevicesFrom nv 0 n

/-- Modelled from the spec: filter the device list by the partitioning-enabled
flag; reading the flag is fallible. -/
def devicesWithMigEnabled : List Device → Except String (List Device)
  | [] => .ok []
  | d :: rest =>
    match d.migEnabled with
    | .error e => .error e
    | .ok flag =>
      match devicesWithMigEnabled rest with
      | .error e => .error e
      | .ok tail => .ok (if flag then d :: tail else tail)

/-- Modelled from the spec: the devices whose partitioning-enabled flag is
unset. -/
def devicesWithMigDisabled : List Device → Except String (List Device)
  | [] => .ok []
  | d :: rest =>
    match d.migEnabled with
    | .error e => .error e
    | .ok flag =>
      match devicesWithMigDisabled rest with
      | .error e => .error e
      | .ok tail => .ok (if flag then tail else d :: tail)

/-- Modelled from the spec: whether some device of the list currently exposes
zero partition sub-devices.  The pass is total over the list (no early
exit). -/
def anyDeviceIsEmpty : List Device → Except String Bool
  | [] => .ok false
  | d :: rest =>
    match d.migDevices with
    | .error e => .error e
    | .ok ms =>
      match anyDeviceIsEmpty rest with
      | .error e => .error e
      | .ok b => .ok (ms.isEmpty || b)

/-- Modelled from the spec: all partition sub-devices of the listed devices,
concatenated in discovery order. -/
def collectMigDevices : List Device → Except String (List MigDevice)
  | [] => .ok []
  | d :: rest =>
    match d.migDevices with
    | .error e => .error e
    | .ok ms =>
      match collectMigDevices rest with
      | .error e => .error e
      | .ok tail => .ok (ms ++ tail)

/-- Modelled from the spec: `DeviceInfo.GetDevicesWithMigEnabled`. -/
def GetDevicesWithMigEnabled (nv : Nvml) : Except String (List Device) :=
  match getDevices nv with
  | .error e => .error e
  | .ok ds => devicesWithMigEnabled ds

/-- Modelled from the spec: `DeviceInfo.GetDevicesWithMigDisabled`. -/
def GetDevicesWithMigDisabled (nv : Nvml) : Except String (List Device) :=
  match getDevices nv with
  | .error e => .error e
  | .ok ds => devicesWithMigDisabled ds

/-- Modelled from the spec: `DeviceInfo.AnyMigEnabledDeviceIsEmpty`. -/
def AnyMigEnabledDeviceIsEmpty (nv : Nvml) : Except String Bool :=
  match GetDevicesWithMigEnabled nv with
  | .error e => .error e
  | .ok es => anyDeviceIsEmpty es

/-- Modelled from the spec: `DeviceInfo.GetAllMigDevices`. -/
def GetAllMigDevices (nv : Nvml) : Except String (List MigDevice) :=
  match GetDevicesWithMigEnabled nv with
  | .error e => .error e
  | .ok es => collectMigDevices es

/-! ### Flavor naming (from the source: `getMigDeviceName`) -/

/-- `getMigDeviceName` returns the canonical name of a MIG device:
`g := attr.GpuInstanceSliceCount`, `gb := (attr.MemorySizeMB + 1024 - 1) / 1024`,
formatted as `"{g}g.{gb}gb"`. -/
def getMigDeviceName (mig : MigDevice) : Except String String :=
  match mig.getAttributes with
  | .error e => .error e
  | .ok attr =>
    let g := attr.GpuInstanceSliceCount
    let gb := (attr.MemorySizeMB + 1024 - 1) / 1024
    .ok (toString g ++ "g." ++ toString gb ++ "gb")

/-! ### Resource aggregation (from the source: the accumulator loops of
`newMigStrategySingleLabeler` and `newMigStrategyMixedLabeler`) -/

/-- `migResource` tracks MIG devices for labelling under the single and mixed
strategies: a resource name, a representative device and a count. -/
structure MigResource where
  name : String
  device : MigDevice
  count : Nat
deriving Repr, DecidableEq

/-- Lookup in the accumulator map (`resources[name]` of the Go map). -/
def findResource : List (String × MigResource) → String → Option MigResource
  | [], _ => none
  | (k, v) :: rest, name => if k = name then some v else findResource rest name

/-- Store into the accumulator map (`resources[name] = resource`); a fresh key
is appended in discovery order. -/
def setResource : List (String × MigResource) → String → MigResource → List (String × MigResource)
  | [], name, r => [(name, r)]
  | (k, v) :: rest, name, r =>
    if k = name then (name, r) :: rest else (k, v) :: setResource rest name r

/-- The accumulation loop shared verbatim by the single and mixed labelers:
for each MIG device compute its name; on the first occurrence record the
device reference and the resource name given by the strategy's naming policy
(`"nvidia.com/gpu"` for single, `"nvidia.com/mig-" ++ name` for mixed); then
increase the count.  A name-parse failure aborts with the loop's error. -/
def aggregateMigResources (policy : String → String) :
    List MigDevice → List (String × MigResource) → Except String (List (String × MigResource))
  | [], resources => .ok resources
  | mig :: rest, resources =>
    match getMigDeviceName mig with
    | .error e => .error ("unable to parse MIG device name: " ++ e)
    | .ok name =>
      let resource :=
        match findResource resources name with
        | none => { name := policy name, device := mig, count := 0 : MigResource }
        | some r => r
      let resource := { resource with count := resource.count + 1 }
      aggregateMigResources policy rest (setResource resources name resource)

/-! ### Labelers -/

/-- The closed set of label-producing results.  Label-string composition
itself is an external mechanical collaborator; each variant records the data
the labels are built from.  `invalidConfig model field value count memory`
is the set built by `productLabel model "MIG" "INVALID"` with the count and
memory labels; `migDeviceLabels` carries the aggregated resource records;
`gpuLabels` the full-GPU labels from a device model and the device count. -/
inductive Labeler where
  | empty : Labeler
  | gpuLabels (model : String) (count : Nat) : Labeler
  | migStrategyLabel (strategy : String) : Labeler
  | invalidConfig (model : String) (field value : String) (count memory : Nat) : Labeler
  | migDeviceLabels (resources : List (String × MigResource)) : Labeler
  | merge (a b : Labeler) : Labeler
deriving Repr, DecidableEq

/-- Modelled from the spec: `NewGPUResourceLabeler` (full-device labeling
collaborator, not in the source fragment) builds the full-device-class labels
from the device's model name and the device count; it fails if the model name
cannot be read. -/
def NewGPUResourceLabeler (device : Device) (count : Nat) : Except String Labeler :=
  match device.getName with
  | .error e => .error e
  | .ok model => .ok (.gpuLabels model count)

/-- Modelled from the spec: `NewMIGResourceLabeler` composed over all records
(`newMIGDeviceLabelers` of the source): the mechanical per-record label
emission, carrying the aggregated records. -/
def newMIGDeviceLabelers (resources : List (String × MigResource)) : Except String Labeler :=
  .ok (.migDeviceLabels resources)

/-- From the source: log a warning carrying the reason, then build the
full-device-class labels from device 0's model with the MIG field set to
`"INVALID"`, count 0 and memory 0.  The first component is the list of
warning messages logged. -/
def newInvalidMigStrategyLabeler (nv : Nvml) (reason : String) :
    List String × Except String Labeler :=
  (["WARNING: Invalid configuration detected for mig-strategy=single: " ++ reason],
   match nv.newDevice 0 with
   | .error e => .error ("error getting device: " ++ e)
   | .ok device =>
     match device.getName with
     | .error e => .error ("failed to get device model: " ++ e)
     | .ok model => .ok (.invalidConfig model "MIG" "INVALID" 0 0))

/-- From the source: the `mig-strategy=single` labeler.  Ordered checks:
no enabled device at all behaves like strategy none (empty labeler); then any
enabled-but-empty device, then any disabled device alongside enabled ones are
invalid configurations; then the sub-devices are aggregated under the fixed
resource name `"nvidia.com/gpu"` and more than one resulting MIG device type
is invalid.  The first component collects the warnings logged. -/
def newMigStrategySingleLabeler (nv : Nvml) : List String × Except String Labeler :=
  match GetDevicesWithMigEnabled nv with
  | .error e => ([], .error ("unabled to retrieve list of MIG-enabled devices: " ++ e))
  | .ok migEnabledDevices =>
    if migEnabledDevices.length = 0 then ([], .ok .empty)
    else
      match AnyMigEnabledDeviceIsEmpty nv with
      | .error e => ([], .error ("failed to check for empty MIG-enabled devices: " ++ e))
      | .ok hasEmpty =>
        if hasEmpty then
          newInvalidMigStrategyLabeler nv "at least one MIG device is enabled but empty"
        else
          match GetDevicesWithMigDisabled nv with
          | .error e => ([], .error ("unabled to retrieve list of non-MIG-enabled devices: " ++ e))
          | .ok migDisabledDevices =>
            if migDisabledDevices.length ≠ 0 then
              newInvalidMigStrategyLabeler nv "devices with MIG enabled and disable detected"
            else
              match GetAllMigDevices nv with
              | .error e => ([], .error ("unable to retrieve list of MIG devices: " ++ e))
              | .ok migs =>
                match aggregateMigResources (fun _ => "nvidia.com/gpu") migs [] with
                | .error e => ([], .error e)
                | .ok resources =>
                  if resources.length ≠ 1 then
                    newInvalidMigStrategyLabeler nv "more than one MIG device type present on node"
                  else ([], newMIGDeviceLabelers resources)

/-- From the source: the `mig-strategy=mixed` labeler.  Enumerates all MIG
devices (devices with migEnabled=true but exposing no MIG devices are
ignored) and aggregates them under per-flavor resource names
`"nvidia.com/mig-" ++ name`. -/
def newMigStrategyMixedLabeler (nv : Nvml) : List String × Except String Labeler :=
  match GetAllMigDevices nv with
  | .error e => ([], .error ("unable to retrieve list of MIG devices: " ++ e))
  | .ok migs =>
    match aggregateMigResources (fun name => "nvidia.com/mig-" ++ name) migs [] with
    | .error e => ([], .error e)
    | .ok resources => ([], newMIGDeviceLabelers resources)

/-- From the source: `newMigLabeler` dispatches on the strategy string; an
unknown strategy is a hard error, with no fallback.  On success the
strategy-specific labeler is merged with the mig.strategy label. -/
def newMigLabeler (nv : Nvml) (migStrategy : String) : List String × Except String Labeler :=
  let step : List String × Except String Labeler :=
    if migStrategy = MigStrategyNone then ([], .ok .empty)
    else if migStrategy = MigStrategySingle then
      match newMigStrategySingleLabeler nv with
      | (logs, .error e) => (logs, .error ("failed to create labeler for mig-strategy=single: " ++ e))
      | (logs, .ok labeler) => (logs, .ok labeler)
    else if migStrategy = MigStrategyMixed then
      match newMigStrategyMixedLabeler nv with
      | (logs, .error e) => (logs, .error ("failed to create labeler for mig-strategy=mixed: " ++ e))
      | (logs, .ok labeler) => (logs, .ok labeler)
    else ([], .error ("unknown strategy: " ++ migStrategy))
  match step with
  | (logs, .error e) => (logs, .error e)
  | (logs, .ok labeler) => (logs, .ok (.merge (.migStrategyLabel migStrategy) labeler))

/-- From the source: `newGPULabelers` reads the device count (zero devices is
an error here) and then enumerates devices; the loop body appends one labeler
and unconditionally breaks, so only device 0 is ever processed. -/
def newGPULabelers (nv : Nvml) : Except String Labeler :=
  match nv.deviceCount with
  | .error e => .error ("error getting device count: " ++ e)
  | .ok count =>
    if count = 0 then .error "no GPU devices detected"
    else
      match nv.newDevice 0 with
      | .error e => .error ("error getting device: " ++ e)
      | .ok device =>
        match NewGPUResourceLabeler device count with
        | .error e => .error ("failed to construct labeler: " ++ e)
        | .ok l => .ok l

/-- From the source: `NewResourceLabeler`, the entry point of one labeling
pass.  Zero detected GPUs yield the empty labeler with no error; otherwise
the full-GPU labeler is built first, returned alone under strategy none, and
merged with the MIG labeler otherwise.  The first component collects the
warnings logged during the pass. -/
def NewResourceLabeler (nv : Nvml) (migStrategy : String) :
    List String × Except String Labeler :=
  match nv.deviceCount with
  | .error e => ([], .error ("error getting device count: " ++ e))
  | .ok count =>
    if count = 0 then ([], .ok .empty)
    else
      match newGPULabelers nv with
      | .error e => ([], .error ("failed to construct GPU labeler: " ++ e))
      | .ok fullGPULabeler =>
        if migStrategy = MigStrategyNone then ([], .ok fullGPULabeler)
        else
          match newMigLabeler nv migStrategy with
          | (logs, .error e) => (logs, .error ("failed to construct MIG resource labeler: " ++ e))
          | (logs, .ok migLabeler) => (logs, .ok (.merge fullGPULabeler migLabeler))

/-! ### Concrete fixtures -/

/-- A MIG sub-device with readable attributes: slice count `s`, memory `m` MB. -/
def migSub (s m : Nat) : MigDevice := ⟨.ok ⟨s, m⟩⟩

/-- A device with all attributes readable. -/
def plainDevice (model : String) (enabled : Bool) (migs : List MigDevice) : Device :=
  { getName := .ok model, migEnabled := .ok enabled, migDevices := .ok migs }

/-- One MIG-enabled non-empty device next to one MIG-disabled device. -/
def mixedEnablementNvml : Nvml :=
  Nvml.ofDevices
    [plainDevice "ModelX" true [migSub 3 20096],
     plainDevice "ModelX" false []]

/-- Two enabled devices exposing 3 and 4 sub-devices, all of flavor 3g.20gb. -/
def sevenMigNvml : Nvml :=
  Nvml.ofDevices
    [plainDevice "ModelX" true [migSub 3 20096, migSub 3 20096, migSub 3 20096],
     plainDevice "ModelX" true [migSub 3 20096, migSub 3 20096, migSub 3 20096, migSub 3 20096]]

/-- Flavors 1g.5gb (twice) and 2g.10gb (once) plus one enabled-but-empty
device. -/
def twoFlavorNvml : Nvml :=
  Nvml.ofDevices
    [plainDevice "ModelA" true [migSub 1 5120, migSub 1 5120],
     plainDevice "ModelA" true [migSub 2 10240],
     plainDevice "ModelA" true []]

/-- Three devices; reading the model name fails on devices 1 and 2. -/
def brokenTailNvml : Nvml :=
  Nvml.ofDevices
    [plainDevice "Model0" false [],
     { getName := .error "name read failed", migEnabled := .ok false, migDevices := .ok [] },
     { getName := .error "name read failed", migEnabled := .ok false, migDevices := .ok [] }]

/-- A facade reporting zero devices. -/
def noDeviceNvml : Nvml := Nvml.ofDevices []

/-- A facade whose device-count query itself fails. -/
def brokenCountNvml : Nvml :=
  { deviceCount := .error "nvml query failed", newDevice := fun _ => .error "nvml query failed" }

/-! ### Specification-side helpers for the aggregation invariant -/

/-- The flavor names of a list of MIG devices, in order; fails if any
attribute read fails. -/
def migDeviceNames : List MigDevice → Except String (List String)
  | [] => .ok []
  | m :: rest =>
    match getMigDeviceName m with
    | .error e => .error e
    | .ok n =>
      match migDeviceNames rest with
      | .error e => .error e
      | .ok ns => .ok (n :: ns)

/-- Number of occurrences of flavor `f` in a flavor list. -/
def countFlavor : List String → String → Nat
  | [], _ => 0
  | g :: rest, f => (if g = f then 1 else 0) + countFlavor rest f

/-- The keys of an aggregation result. -/
def keysOf (res : List (String × MigResource)) : List String := res.map Prod.fst

/-- The relation between a flavor list and an aggregation accumulator: keys
are unique; present records carry the count of their flavor and its
policy-given resource name; absent flavors have count zero. -/
def aggInvariant (policy : String → String) (fs : List String)
    (res : List (String × MigResource)) : Prop :=
  (keysOf res).Nodup ∧
  (∀ f r, findResource res f = some r →
      r.count = countFlavor fs f ∧ r.name = policy f ∧ 0 < countFlavor fs f) ∧
  (∀ f, findResource res f = none → countFlavor fs f = 0)

lemma countFlavor_append (l₁ l₂ : List String) (f : String) :
    countFlavor (l₁ ++ l₂) f = countFlavor l₁ f + countFlavor l₂ f := by
  induction l₁ with
  | nil => simp [countFlavor]
  | cons g rest ih => simp [countFlavor, ih]; omega

lemma countFlavor_pos_iff_mem (fs : List String) (f : String) :
    0 < countFlavor fs f ↔ f ∈ fs := by
  induction fs with
  | nil => simp [countFlavor]
  | cons g rest ih =>
    by_cases h : g = f
    · subst h; simp [countFlavor]
    · simp [countFlavor, h, ih, Ne.symm h]

lemma keysOf_nil : keysOf [] = [] := rfl

lemma keysOf_cons (p : String × MigResource) (l : List (String × MigResource)) :
    keysOf (p :: l) = p.1 :: keysOf l := rfl

lemma findResource_setResource_self (l : List (String × MigResource)) (k : String)
    (r : MigResource) : findResource (setResource l k r) k = some r := by
  induction l with
  | nil => simp [setResource, findResource]
  | cons p rest ih =>
    obtain ⟨k₀, v₀⟩ := p
    by_cases h : k₀ = k
    · simp [setResource, h, findResource]
    · simp [setResource, h, findResource, ih]

lemma findResource_setResource_ne (l : List (String × MigResource)) (k k' : String)
    (r : MigResource) (h : k' ≠ k) :
    findResource (setResource l k r) k' = findResource l k' := by
  have h' : ¬k = k' := Ne.symm h
  induction l with
  | nil => simp [setResource, findResource, h']
  | cons p rest ih =>
    obtain ⟨k₀, v₀⟩ := p
    by_cases h₀ : k₀ = k
    · subst h₀
      simp [setResource, findResource, h']
    · by_cases hk : k₀ = k'
      · simp [setResource, h₀, findResource, hk, h]
      · simp [setResource, h₀, findResource, hk, ih]

lemma findResource_eq_none_iff (l : List (String × MigResource)) (k : String) :
    findResource l k = none ↔ k ∉ keysOf l := by
  induction l with
  | nil => simp [findResource, keysOf_nil]
  | cons p rest ih =>
    obtain ⟨k₀, v₀⟩ := p
    by_cases h : k₀ = k
    · simp [findResource, h, keysOf_cons]
    · simp [findResource, h, keysOf_cons, ih, Ne.symm h]

lemma keysOf_setResource_some (l : List (String × MigResource)) (k : String)
    (v r : MigResource) (h : findResource l k = some v) :
    keysOf (setResource l k r) = keysOf l := by
  induction l with
  | nil => simp [findResource] at h
  | cons p rest ih =>
    obtain ⟨k₀, v₀⟩ := p
    simp only [findResource] at h
    by_cases hp : k₀ = k
    · simp [setResource, hp, keysOf_cons]
    · rw [if_neg hp] at h
      simp [setResource, hp, keysOf_cons, ih h]

lemma keysOf_setResource_none (l : List (String × MigResource)) (k : String)
    (r : MigResource) (h : findResource l k = none) :
    keysOf (setResource l k r) = keysOf l ++ [k] := by
  induction l with
  | nil => simp [setResource, keysOf_nil, keysOf_cons]
  | cons p rest ih =>
    obtain ⟨k₀, v₀⟩ := p
    simp only [findResource] at h
    by_cases hp : k₀ = k
    · simp [hp] at h
    · rw [if_neg hp] at h
      simp [setResource, hp, keysOf_cons, ih h]

lemma countFlavor_snoc (pre : List String) (n f : String) :
    countFlavor (pre ++ [n]) f = countFlavor pre f + (if n = f then 1 else 0) := by
  rw [countFlavor_append]
  simp [countFlavor]

lemma aggInvariant_nil (policy : String → String) : aggInvariant policy [] [] := by
  refine ⟨by simp [keysOf_nil], ?_, ?_⟩
  · intro f r h
    simp [findResource] at h
  · intro f _
    rfl

lemma aggInvariant_step_none (policy : String → String) (pre : List String)
    (acc : List (String × MigResource)) (n : String) (m : MigDevice)
    (hinv : aggInvariant policy pre acc) (hfind : findResource acc n = none) :
    aggInvariant policy (pre ++ [n])
      (setResource acc n { name := policy n, device := m, count := 1 }) := by
  obtain ⟨hnd, hsome, hnone⟩ := hinv
  refine ⟨?_, ?_, ?_⟩
  · rw [keysOf_setResource_none acc n _ hfind]
    have hmem : n ∉ keysOf acc := (findResource_eq_none_iff acc n).1 hfind
    simp [List.nodup_append, hnd, hmem]
  · intro f r hr
    by_cases hf : f = n
    · subst hf
      rw [findResource_setResource_self] at hr
      have hr' := Option.some.inj hr
      subst hr'
      refine ⟨?_, rfl, ?_⟩ <;> rw [countFlavor_snoc, hnone f hfind] <;> simp
    · rw [findResource_setResource_ne acc n f _ hf] at hr
      obtain ⟨hc, hn, hp⟩ := hsome f r hr
      rw [countFlavor_snoc]
      rw [if_neg (fun hh => hf (Eq.symm hh))]
      exact ⟨by omega, hn, by omega⟩
  · intro f hf
    by_cases hfn : f = n
    · subst hfn
      rw [findResource_setResource_self] at hf
      cases hf
    · rw [findResource_setResource_ne acc n f _ hfn] at hf
      rw [countFlavor_snoc, hnone f hf, if_neg (fun hh => hfn (Eq.symm hh))]

lemma aggInvariant_step_some (policy : String → String) (pre : List String)
    (acc : List (String × MigResource)) (n : String) (r₀ : MigResource)
    (hinv : aggInvariant policy pre acc) (hfind : findResource acc n = some r₀) :
    aggInvariant policy (pre ++ [n])
      (setResource acc n { name := r₀.name, device := r₀.device, count := r₀.count + 1 }) := by
  obtain ⟨hnd, hsome, hnone⟩ := hinv
  obtain ⟨hc₀, hn₀, hp₀⟩ := hsome n r₀ hfind
  refine ⟨?_, ?_, ?_⟩
  · rw [keysOf_setResource_some acc n r₀ _ hfind]
    exact hnd
  · intro f r hr
    by_cases hf : f = n
    · subst hf
      rw [findResource_setResource_self] at hr
      have hr' := Option.some.inj hr
      subst hr'
      rw [countFlavor_snoc]
      simp [hc₀, hn₀]
    · rw [findResource_setResource_ne acc n f _ hf] at hr
      obtain ⟨hc, hn, hp⟩ := hsome f r hr
      rw [countFlavor_snoc, if_neg (fun hh => hf (Eq.symm hh))]
      exact ⟨by omega, hn, by omega⟩
  · intro f hf
    by_cases hfn : f = n
    · subst hfn
      rw [findResource_setResource_self] at hf
      cases hf
    · rw [findResource_setResource_ne acc n f _ hfn] at hf
      rw [countFlavor_snoc, hnone f hf, if_neg (fun hh => hfn (Eq.symm hh))]

lemma aggregateMigResources_invariant (policy : String → String) :
    ∀ (migs : List MigDevice) (fs pre : List String) (acc : List (String × MigResource)),
      migDeviceNames migs = .ok fs → aggInvariant policy pre acc →
      ∃ res, aggregateMigResources policy migs acc = .ok res ∧
        aggInvariant policy (pre ++ fs) res := by
  intro migs
  induction migs with
  | nil =>
    intro fs pre acc h hinv
    simp only [migDeviceNames] at h
    have h' := Except.ok.inj h
    subst h'
    exact ⟨acc, rfl, by simpa using hinv⟩
  | cons m rest ih =>
    intro fs pre acc h hinv
    simp only [migDeviceNames] at h
    cases hn : getMigDeviceName m with
    | error e =>
      rw [hn] at h
      simp at h
    | ok n =>
      rw [hn] at h
      cases hns : migDeviceNames rest with
      | error e =>
        rw [hns] at h
        simp at h
      | ok ns =>
        rw [hns] at h
        simp at h
        subst h
        simp only [aggregateMigResources]
        rw [hn]
        cases hf : findResource acc n with
        | none =>
          have hstep := aggInvariant_step_none policy pre acc n m hinv hf
          obtain ⟨res, hres, hinv'⟩ :=
            ih ns (pre ++ [n]) (setResource acc n { name := policy n, device := m, count := 1 })
              hns hstep
          refine ⟨res, ?_, ?_⟩
          · simpa [hf] using hres
          · simpa using hinv'
        | some r₀ =>
          have hstep := aggInvariant_step_some policy pre acc n r₀ hinv hf
          obtain ⟨res, hres, hinv'⟩ :=
            ih ns (pre ++ [n])
              (setResource acc n { name := r₀.name, device := r₀.device, count := r₀.count + 1 })
              hns hstep
          refine ⟨res, ?_, ?_⟩
          · simpa [hf] using hres
          · simpa using hinv'

/-- Aggregation from an empty accumulator establishes the invariant for the
full flavor list. -/
lemma aggregateMigResources_spec (policy : String → String) (migs : List MigDevice)
    (fs : List String) (h : migDeviceNames migs = .ok fs) :
    ∃ res, aggregateMigResources policy migs [] = .ok res ∧ aggInvariant policy fs res := by
  obtain ⟨res, hres, hinv⟩ := aggregateMigResources_invariant policy migs fs [] [] h
    (aggInvariant_nil policy)
  exact ⟨res, hres, by simpa using hinv⟩

lemma migDeviceNames_length (migs : List MigDevice) (fs : List String)
    (h : migDeviceNames migs = .ok fs) : fs.length = migs.length := by
  induction migs generalizing fs with
  | nil =>
    simp only [migDeviceNames] at h
    have h' := Except.ok.inj h
    subst h'
    rfl
  | cons m rest ih =>
    simp only [migDeviceNames] at h
    cases hn : getMigDeviceName m with
    | error e => rw [hn] at h; simp at h
    | ok n =>
      rw [hn] at h
      cases hns : migDeviceNames rest with
      | error e => rw [hns] at h; simp at h
      | ok ns =>
        rw [hns] at h
        simp at h
        subst h
        simp [ih ns hns]

lemma findResource_some_of_mem (policy : String → String) (fs : List String)
    (res : List (String × MigResource)) (hinv : aggInvariant policy fs res)
    (f : String) (hf : f ∈ fs) :
    ∃ r, findResource res f = some r ∧ r.count = countFlavor fs f ∧ r.name = policy f := by
  obtain ⟨hnd, hsome, hnone⟩ := hinv
  cases hr : findResource res f with
  | none =>
    have h0 := hnone f hr
    have hpos := (countFlavor_pos_iff_mem fs f).2 hf
    omega
  | some r =>
    obtain ⟨hc, hn, _⟩ := hsome f r hr
    exact ⟨r, rfl, hc, hn⟩

lemma mem_keysOf_of_findResource_some (l : List (String × MigResource)) (k : String)
    (r : MigResource) (h : findResource l k = some r) : k ∈ keysOf l := by
  by_contra hk
  rw [← findResource_eq_none_iff] at hk
  rw [h] at hk
  cases hk

lemma aggInvariant_ne_nil (policy : String → String) (fs : List String)
    (res : List (String × MigResource)) (hinv : aggInvariant policy fs res)
    (hfs : fs ≠ []) : res ≠ [] := by
  cases fs with
  | nil => exact absurd rfl hfs
  | cons f rest =>
    obtain ⟨r, hr, -, -⟩ :=
      findResource_some_of_mem policy (f :: rest) res hinv f (List.mem_cons_self f rest)
    intro hres
    subst hres
    simp [findResource] at hr

lemma two_le_length_of_two_mem {α : Type} (l : List α) (a b : α) (hab : a ≠ b)
    (ha : a ∈ l) (hb : b ∈ l) : 2 ≤ l.length := by
  cases l with
  | nil => simp at ha
  | cons x rest =>
    cases rest with
    | nil =>
      simp at ha hb
      subst ha
      subst hb
      exact absurd rfl hab
    | cons y rest' =>
      simp only [List.length_cons]
      omega

lemma keysOf_length (res : List (String × MigResource)) : (keysOf res).length = res.length := by
  simp [keysOf]

/-- An aggregation result has at least two records exactly when two distinct
flavors occur among the inputs. -/
lemma two_le_length_iff_two_flavors (policy : String → String) (fs : List String)
    (res : List (String × MigResource)) (hinv : aggInvariant policy fs res) :
    2 ≤ res.length ↔ ∃ f g, f ≠ g ∧ f ∈ fs ∧ g ∈ fs := by
  constructor
  · intro hlen
    match res, hlen with
    | p :: q :: rest, _ =>
      obtain ⟨hnd, hsome, hnone⟩ := hinv
      have hne : p.1 ≠ q.1 := by
        rw [keysOf_cons, keysOf_cons, List.nodup_cons] at hnd
        intro hh
        exact hnd.1 (by simp [hh])
      have hp : findResource (p :: q :: rest) p.1 = some p.2 := by
        simp [findResource]
      have hq : findResource (p :: q :: rest) q.1 = some q.2 := by
        simp [findResource, hne]
      obtain ⟨-, -, hpp⟩ := hsome p.1 p.2 hp
      obtain ⟨-, -, hqp⟩ := hsome q.1 q.2 hq
      exact ⟨p.1, q.1, hne, (countFlavor_pos_iff_mem fs p.1).1 hpp,
        (countFlavor_pos_iff_mem fs q.1).1 hqp⟩
  · rintro ⟨f, g, hfg, hf, hg⟩
    obtain ⟨rf, hrf, -, -⟩ := findResource_some_of_mem policy fs res hinv f hf
    obtain ⟨rg, hrg, -, -⟩ := findResource_some_of_mem policy fs res hinv g hg
    have hfm := mem_keysOf_of_findResource_some res f rf hrf
    have hgm := mem_keysOf_of_findResource_some res g rg hrg
    have := two_le_length_of_two_mem (keysOf res) f g hfg hfm hgm
    rw [keysOf_length] at this
    exact this

/-- If no MIG-enabled device is empty and there is at least one of them, the
collected MIG device list is non-empty. -/
lemma collectMigDevices_ne_nil (d : Device) (rest : List Device) (ms : List MigDevice)
    (hempty : anyDeviceIsEmpty (d :: rest) = .ok false)
    (hcol : collectMigDevices (d :: rest) = .ok ms) : ms ≠ [] := by
  simp only [anyDeviceIsEmpty, collectMigDevices] at hempty hcol
  cases hm : d.migDevices with
  | error e => rw [hm] at hempty; simp at hempty
  | ok ms₁ =>
    rw [hm] at hempty hcol
    cases hrest : anyDeviceIsEmpty rest with
    | error e => rw [hrest] at hempty; simp at hempty
    | ok b =>
      rw [hrest] at hempty
      simp at hempty
      cases hcol' : collectMigDevices rest with
      | error e => rw [hcol'] at hcol; simp at hcol
      | ok tail =>
        rw [hcol'] at hcol
        simp at hcol
        subst hcol
        cases ms₁ with
        | nil => simp at hempty
        | cons m ms₂ => simp

/-- A single-device facade with one non-MIG device. -/
def oneDeviceNvml : Nvml := Nvml.ofDevices [plainDevice "Model0" false []]

/-! ### Claims -/

/-- C2: for a partition sub-device with slice count `s` and memory `m` MB, the
flavor name is `"{s}g.{gb}gb"` with `gb = (m + 1023) / 1024`, which is the
ceiling of `m / 1024` (characterized by its Galois connection); in particular
memory sizes 1024, 1025 and 20096 give gb components 1, 2 and 20, and
slice count 3 with 20096 MB gives `"3g.20gb"`. -/
theorem C2_flavor_name :
    (∀ (s m : Nat) (d : MigDevice), d.getAttributes = .ok ⟨s, m⟩ →
        getMigDeviceName d =
          .ok (toString s ++ "g." ++ toString ((m + 1023) / 1024) ++ "gb") ∧
        (∀ k, (m + 1023) / 1024 ≤ k ↔ m ≤ 1024 * k)) ∧
    getMigDeviceName (migSub 1 1024) = .ok "1g.1gb" ∧
    getMigDeviceName (migSub 1 1025) = .ok "1g.2gb" ∧
    getMigDeviceName (migSub 3 20096) = .ok "3g.20gb" := by
  refine ⟨?_, by decide, by decide, by decide⟩
  intro s m d hd
  constructor
  · have hm : m + 1024 - 1 = m + 1023 := by omega
    simp [getMigDeviceName, hd, hm]
  · intro k
    rw [Nat.div_le_iff_le_mul_add_pred (by norm_num)]
    omega

theorem C2_flavor_name_witness :
    getMigDeviceName (migSub 3 20096) =
      .ok (toString 3 ++ "g." ++ toString ((20096 + 1023) / 1024) ++ "gb") :=
  (C2_flavor_name.1 3 20096 (migSub 3 20096) rfl).1

/-- C9: with a device count of zero, `NewResourceLabeler` returns the empty
labeler and no error for every strategy string, recognized or not. -/
theorem C9_zero_devices_empty_labeler (nv : Nvml) (strategy : String)
    (h : nv.deviceCount = .ok 0) :
    NewResourceLabeler nv strategy = ([], .ok .empty) := by
  simp [NewResourceLabeler, h]

theorem C9_zero_devices_empty_labeler_witness :
    NewResourceLabeler noDeviceNvml "garbage" = ([], .ok .empty) :=
  C9_zero_devices_empty_labeler noDeviceNvml "garbage" rfl

/-- C3 counterexample: with an unrecognized strategy the pass does not always
fail, and when it fails the error need not be the configuration error: with
zero detected devices the pass succeeds with the empty labeler, and a failing
device-count query surfaces the query error first — device I/O precedes the
strategy check. -/
theorem C3_counterexample :
    NewResourceLabeler noDeviceNvml "bogus" = ([], .ok Labeler.empty) ∧
    NewResourceLabeler brokenCountNvml "bogus" =
      ([], .error "error getting device count: nvml query failed") :=
  ⟨by decide, by decide⟩

/-- C3 (amended): when at least one device is detected and the full-GPU
labeler is built successfully, a strategy outside none/single/mixed fails the
whole pass with the unknown-strategy configuration error and no fallback
strategy is substituted; the error is surfaced after the device-count query
and the full-GPU labeling. -/
theorem C3_unknown_strategy_error (nv : Nvml) (strategy : String) (n : Nat)
    (gl : Labeler) (hc : nv.deviceCount = .ok n) (hn : n ≠ 0)
    (hg : newGPULabelers nv = .ok gl)
    (h1 : strategy ≠ MigStrategyNone) (h2 : strategy ≠ MigStrategySingle)
    (h3 : strategy ≠ MigStrategyMixed) :
    NewResourceLabeler nv strategy =
      ([], .error ("failed to construct MIG resource labeler: " ++
        ("unknown strategy: " ++ strategy))) := by
  simp [NewResourceLabeler, hc, hn, hg, newMigLabeler, h1, h2, h3]

theorem C3_unknown_strategy_error_witness :
    NewResourceLabeler oneDeviceNvml "bogus" =
      ([], .error ("failed to construct MIG resource labeler: " ++
        ("unknown strategy: " ++ "bogus"))) :=
  C3_unknown_strategy_error oneDeviceNvml "bogus" 1 (.gpuLabels "Model0" 1)
    rfl (by decide) (by decide) (by decide) (by decide) (by decide)

/-- C4: under strategy single, an empty set of MIG-enabled devices yields the
empty labeler with no error and no invalid marker — the same sub-labeler the
none strategy installs unconditionally. -/
theorem C4_single_no_enabled_devices (nv : Nvml)
    (h : GetDevicesWithMigEnabled nv = .ok []) :
    newMigStrategySingleLabeler nv = ([], .ok .empty) ∧
    newMigLabeler nv MigStrategySingle =
      ([], .ok (.merge (.migStrategyLabel MigStrategySingle) .empty)) ∧
    ∀ nv2 : Nvml, newMigLabeler nv2 MigStrategyNone =
      ([], .ok (.merge (.migStrategyLabel MigStrategyNone) .empty)) := by
  have hsingle : newMigStrategySingleLabeler nv = ([], .ok .empty) := by
    simp [newMigStrategySingleLabeler, h]
  refine ⟨hsingle, ?_, ?_⟩
  · simp [newMigLabeler, MigStrategySingle, MigStrategyNone, hsingle]
  · intro nv2
    simp [newMigLabeler]

theorem C4_single_no_enabled_devices_witness :
    newMigStrategySingleLabeler oneDeviceNvml = ([], .ok .empty) :=
  (C4_single_no_enabled_devices oneDeviceNvml (by decide)).1

lemma newInvalidMigStrategyLabeler_fst (nv : Nvml) (reason : String) :
    (newInvalidMigStrategyLabeler nv reason).1 =
      ["WARNING: Invalid configuration detected for mig-strategy=single: " ++ reason] := rfl

lemma newInvalidMigStrategyLabeler_ok_inv (nv : Nvml) (reason : String)
    (model fld value : String) (cnt mem : Nat)
    (h : (newInvalidMigStrategyLabeler nv reason).2 =
      .ok (.invalidConfig model fld value cnt mem)) :
    (∃ d, nv.newDevice 0 = .ok d ∧ d.getName = .ok model) ∧
    fld = "MIG" ∧ value = "INVALID" ∧ cnt = 0 ∧ mem = 0 := by
  simp only [newInvalidMigStrategyLabeler] at h
  split at h
  · simp at h
  · rename_i d hd
    split at h
    · simp at h
    · rename_i model' hm
      simp at h
      obtain ⟨h1, h2, h3, h4, h5⟩ := h
      exact ⟨⟨d, hd, by rw [hm, h1]⟩, h2.symm, h3.symm, h4.symm, h5.symm⟩

/-- C1: under strategy single with a non-empty enabled set, the emptiness
check fires first regardless of the later checks, then the mixed-enablement
check fires regardless of the flavors — evaluation short-circuits at the
first violated check, which alone determines the logged reason; in
particular one enabled non-empty device next to one disabled device yields
the invalid label set with the mixed-enablement reason. -/
theorem C1_single_check_precedence :
    (∀ (nv : Nvml) (es : List Device),
        GetDevicesWithMigEnabled nv = .ok es → es ≠ [] →
        AnyMigEnabledDeviceIsEmpty nv = .ok true →
        newMigStrategySingleLabeler nv =
          newInvalidMigStrategyLabeler nv "at least one MIG device is enabled but empty") ∧
    (∀ (nv : Nvml) (es ds : List Device),
        GetDevicesWithMigEnabled nv = .ok es → es ≠ [] →
        AnyMigEnabledDeviceIsEmpty nv = .ok false →
        GetDevicesWithMigDisabled nv = .ok ds → ds ≠ [] →
        newMigStrategySingleLabeler nv =
          newInvalidMigStrategyLabeler nv "devices with MIG enabled and disable detected") ∧
    newMigStrategySingleLabeler mixedEnablementNvml =
      (["WARNING: Invalid configuration detected for mig-strategy=single: devices with MIG enabled and disable detected"],
       .ok (.invalidConfig "ModelX" "MIG" "INVALID" 0 0)) := by
  refine ⟨?_, ?_, by decide⟩
  · intro nv es h1 h2 h3
    have hlen : ¬es.length = 0 := by simpa [List.length_eq_zero] using h2
    simp [newMigStrategySingleLabeler, h1, hlen, h3]
  · intro nv es ds h1 h2 h3 h4 h5
    have hlen : ¬es.length = 0 := by simpa [List.length_eq_zero] using h2
    have hlen2 : ¬ds.length = 0 := by simpa [List.length_eq_zero] using h5
    simp [newMigStrategySingleLabeler, h1, hlen, h3, h4, hlen2]

theorem C1_single_check_precedence_witness :
    newMigStrategySingleLabeler mixedEnablementNvml =
      newInvalidMigStrategyLabeler mixedEnablementNvml
        "devices with MIG enabled and disable detected" :=
  C1_single_check_precedence.2.1 mixedEnablementNvml
    [plainDevice "ModelX" true [migSub 3 20096]] [plainDevice "ModelX" false []]
    (by decide) (by decide) (by decide) (by decide) (by decide)

/-- C10: `newGPULabelers` depends only on the reported device count and on
device 0 — the enumeration loop breaks unconditionally after the first
device — so attribute-read failures on later devices cannot affect or fail
it, as the concrete three-device facade with unreadable tail models shows. -/
theorem C10_gpu_labelers_first_device_only :
    (∀ (nv₁ nv₂ : Nvml) (n : Nat),
        nv₁.deviceCount = .ok n → nv₂.deviceCount = .ok n →
        nv₁.newDevice 0 = nv₂.newDevice 0 →
        newGPULabelers nv₁ = newGPULabelers nv₂) ∧
    newGPULabelers brokenTailNvml = .ok (.gpuLabels "Model0" 3) := by
  refine ⟨?_, by decide⟩
  intro nv₁ nv₂ n h1 h2 h3
  simp only [newGPULabelers, h1, h2, h3]

theorem C10_gpu_labelers_first_device_only_witness :
    newGPULabelers brokenTailNvml =
      newGPULabelers (Nvml.ofDevices
        [plainDevice "Model0" false [],
         plainDevice "ModelY" true [migSub 1 1024],
         plainDevice "ModelZ" false []]) :=
  C10_gpu_labelers_first_device_only.1 brokenTailNvml
    (Nvml.ofDevices
      [plainDevice "Model0" false [],
       plainDevice "ModelY" true [migSub 1 1024],
       plainDevice "ModelZ" false []]) 3 rfl rfl rfl

/-- C5: whenever the strategy-single labeler emits the invalid-configuration
label set, it is built from device 0's model name with the MIG field set to
"INVALID", count 0 and memory 0, and exactly one warning carrying the reason
is logged; and the emission fails when the representative device's model name
cannot be read (the warning is still logged first). -/
theorem C5_invalid_configuration_labels :
    (∀ (nv : Nvml) (logs : List String) (model fld value : String) (cnt mem : Nat),
        newMigStrategySingleLabeler nv = (logs, .ok (.invalidConfig model fld value cnt mem)) →
        (∃ d, nv.newDevice 0 = .ok d ∧ d.getName = .ok model) ∧
        fld = "MIG" ∧ value = "INVALID" ∧ cnt = 0 ∧ mem = 0 ∧
        ∃ reason, logs =
          ["WARNING: Invalid configuration detected for mig-strategy=single: " ++ reason]) ∧
    (∀ (nv : Nvml) (reason : String) (d : Device) (e : String),
        nv.newDevice 0 = .ok d → d.getName = .error e →
        newInvalidMigStrategyLabeler nv reason =
          (["WARNING: Invalid configuration detected for mig-strategy=single: " ++ reason],
           .error ("failed to get device model: " ++ e))) := by
  constructor
  · intro nv logs model fld value cnt mem h
    unfold newMigStrategySingleLabeler at h
    split at h
    · simp at h
    · split at h
      · simp at h
      · split at h
        · simp at h
        · split at h
          · have hfst := congrArg Prod.fst h
            have hsnd := congrArg Prod.snd h
            obtain ⟨hd, hfld, hval, hcnt, hmem⟩ :=
              newInvalidMigStrategyLabeler_ok_inv nv _ model fld value cnt mem hsnd
            exact ⟨hd, hfld, hval, hcnt, hmem,
              "at least one MIG device is enabled but empty",
              hfst.symm.trans (newInvalidMigStrategyLabeler_fst nv _)⟩
          · split at h
            · simp at h
            · split at h
              · have hfst := congrArg Prod.fst h
                have hsnd := congrArg Prod.snd h
                obtain ⟨hd, hfld, hval, hcnt, hmem⟩ :=
                  newInvalidMigStrategyLabeler_ok_inv nv _ model fld value cnt mem hsnd
                exact ⟨hd, hfld, hval, hcnt, hmem,
                  "devices with MIG enabled and disable detected",
                  hfst.symm.trans (newInvalidMigStrategyLabeler_fst nv _)⟩
              · split at h
                · simp at h
                · split at h
                  · simp at h
                  · split at h
                    · have hfst := congrArg Prod.fst h
                      have hsnd := congrArg Prod.snd h
                      obtain ⟨hd, hfld, hval, hcnt, hmem⟩ :=
                        newInvalidMigStrategyLabeler_ok_inv nv _ model fld value cnt mem hsnd
                      exact ⟨hd, hfld, hval, hcnt, hmem,
                        "more than one MIG device type present on node",
                        hfst.symm.trans (newInvalidMigStrategyLabeler_fst nv _)⟩
                    · simp [newMIGDeviceLabelers] at h
  · intro nv reason d e hd hm
    simp [newInvalidMigStrategyLabeler, hd, hm]

theorem C5_invalid_configuration_labels_witness :
    ∃ reason,
      (["WARNING: Invalid configuration detected for mig-strategy=single: devices with MIG enabled and disable detected"] : List String) =
        ["WARNING: Invalid configuration detected for mig-strategy=single: " ++ reason] :=
  (C5_invalid_configuration_labels.1 mixedEnablementNvml
    ["WARNING: Invalid configuration detected for mig-strategy=single: devices with MIG enabled and disable detected"]
    "ModelX" "MIG" "INVALID" 0 0 (by decide)).2.2.2.2.2

/-- C6: under strategy mixed, every flavor occurring among the enumerated
sub-devices yields exactly one record (keys are unique), named
`nvidia.com/mig-` plus the flavor and counting its occurrences; absent
flavors yield no record; concretely, two 1g.5gb and one 2g.10gb sub-devices
next to an enabled-but-empty device yield exactly the two records, no
warning and no invalid marker. -/
theorem C6_mixed_aggregation :
    (∀ (nv : Nvml) (migs : List MigDevice) (fs : List String),
        GetAllMigDevices nv = .ok migs → migDeviceNames migs = .ok fs →
        ∃ res, newMigStrategyMixedLabeler nv = ([], .ok (.migDeviceLabels res)) ∧
          (keysOf res).Nodup ∧
          (∀ f, f ∈ fs → ∃ r, findResource res f = some r ∧
              r.name = "nvidia.com/mig-" ++ f ∧ r.count = countFlavor fs f) ∧
          (∀ f, f ∉ fs → findResource res f = none)) ∧
    newMigStrategyMixedLabeler twoFlavorNvml =
      ([], .ok (.migDeviceLabels
        [("1g.5gb", ⟨"nvidia.com/mig-1g.5gb", migSub 1 5120, 2⟩),
         ("2g.10gb", ⟨"nvidia.com/mig-2g.10gb", migSub 2 10240, 1⟩)])) := by
  refine ⟨?_, by decide⟩
  intro nv migs fs h1 h2
  obtain ⟨res, hres, hinv⟩ :=
    aggregateMigResources_spec (fun name => "nvidia.com/mig-" ++ name) migs fs h2
  refine ⟨res, ?_, hinv.1, ?_, ?_⟩
  · simp [newMigStrategyMixedLabeler, h1, hres, newMIGDeviceLabelers]
  · intro f hf
    obtain ⟨r, hr, hc, hn⟩ := findResource_some_of_mem _ fs res hinv f hf
    exact ⟨r, hr, hn, hc⟩
  · intro f hf
    cases hr : findResource res f with
    | none => rfl
    | some r =>
      obtain ⟨-, -, hp⟩ := hinv.2.1 f r hr
      exact absurd ((countFlavor_pos_iff_mem fs f).1 hp) hf

theorem C6_mixed_aggregation_witness :
    ∃ res, newMigStrategyMixedLabeler twoFlavorNvml = ([], .ok (.migDeviceLabels res)) ∧
      (keysOf res).Nodup ∧
      (∀ f, f ∈ ["1g.5gb", "1g.5gb", "2g.10gb"] → ∃ r, findResource res f = some r ∧
          r.name = "nvidia.com/mig-" ++ f ∧
          r.count = countFlavor ["1g.5gb", "1g.5gb", "2g.10gb"] f) ∧
      (∀ f, f ∉ ["1g.5gb", "1g.5gb", "2g.10gb"] → findResource res f = none) :=
  C6_mixed_aggregation.1 twoFlavorNvml
    [migSub 1 5120, migSub 1 5120, migSub 2 10240]
    ["1g.5gb", "1g.5gb", "2g.10gb"] (by decide) (by decide)

/-- C7: after aggregation under any naming policy, every record's count is
the number of sub-devices whose flavor equals the record's key; concretely,
under strategy single two enabled devices with 3 and 4 sub-devices of flavor
3g.20gb yield one record under `nvidia.com/gpu` with count 7. -/
theorem C7_record_count_invariant :
    (∀ (policy : String → String) (migs : List MigDevice) (fs : List String)
        (res : List (String × MigResource)),
        migDeviceNames migs = .ok fs →
        aggregateMigResources policy migs [] = .ok res →
        ∀ f r, findResource res f = some r → r.count = countFlavor fs f) ∧
    newMigStrategySingleLabeler sevenMigNvml =
      ([], .ok (.migDeviceLabels [("3g.20gb", ⟨"nvidia.com/gpu", migSub 3 20096, 7⟩)])) := by
  refine ⟨?_, by decide⟩
  intro policy migs fs res h1 h2 f r hr
  obtain ⟨res', hres', hinv⟩ := aggregateMigResources_spec policy migs fs h1
  rw [h2] at hres'
  have hres : res = res' := Except.ok.inj hres'
  subst hres
  exact (hinv.2.1 f r hr).1

theorem C7_record_count_invariant_witness :
    MigResource.count ⟨"nvidia.com/gpu", migSub 3 20096, 7⟩ =
      countFlavor ["3g.20gb", "3g.20gb", "3g.20gb", "3g.20gb", "3g.20gb", "3g.20gb", "3g.20gb"]
        "3g.20gb" :=
  C7_record_count_invariant.1 (fun _ => "nvidia.com/gpu")
    [migSub 3 20096, migSub 3 20096, migSub 3 20096, migSub 3 20096,
     migSub 3 20096, migSub 3 20096, migSub 3 20096]
    ["3g.20gb", "3g.20gb", "3g.20gb", "3g.20gb", "3g.20gb", "3g.20gb", "3g.20gb"]
    [("3g.20gb", ⟨"nvidia.com/gpu", migSub 3 20096, 7⟩)]
    (by decide) (by decide) "3g.20gb" ⟨"nvidia.com/gpu", migSub 3 20096, 7⟩ (by decide)

/-- C8: under strategy single with a non-empty enabled set, no empty enabled
device and an empty disabled set, the aggregated mapping is non-empty, the
multi-flavor invalid branch (the size-not-one test) is taken exactly when
more than one distinct flavor occurs, and its zero-flavor case is
unreachable. -/
theorem C8_multi_flavor_check (nv : Nvml) (es : List Device) (migs : List MigDevice)
    (fs : List String) (res : List (String × MigResource))
    (h1 : GetDevicesWithMigEnabled nv = .ok es) (h2 : es ≠ [])
    (h3 : AnyMigEnabledDeviceIsEmpty nv = .ok false)
    (h4 : GetDevicesWithMigDisabled nv = .ok [])
    (h5 : GetAllMigDevices nv = .ok migs)
    (h6 : migDeviceNames migs = .ok fs)
    (h7 : aggregateMigResources (fun _ => "nvidia.com/gpu") migs [] = .ok res) :
    res ≠ [] ∧
    (newMigStrategySingleLabeler nv =
        newInvalidMigStrategyLabeler nv "more than one MIG device type present on node"
      ↔ res.length ≠ 1) ∧
    (res.length ≠ 1 ↔ ∃ f g, f ≠ g ∧ f ∈ fs ∧ g ∈ fs) := by
  obtain ⟨res', hres', hinv⟩ :=
    aggregateMigResources_spec (fun _ => "nvidia.com/gpu") migs fs h6
  rw [h7] at hres'
  have hres : res = res' := Except.ok.inj hres'
  subst hres
  have hmigs : migs ≠ [] := by
    rw [AnyMigEnabledDeviceIsEmpty, h1] at h3
    rw [GetAllMigDevices, h1] at h5
    cases es with
    | nil => exact absurd rfl h2
    | cons d rest => exact collectMigDevices_ne_nil d rest migs h3 h5
  have hfs : fs ≠ [] := by
    intro hnil
    have hlen := migDeviceNames_length migs fs h6
    rw [hnil] at hlen
    cases migs with
    | nil => exact absurd rfl hmigs
    | cons m rest => simp at hlen
  have hresne : res ≠ [] := aggInvariant_ne_nil _ fs res hinv hfs
  have hlen : ¬es.length = 0 := by simpa [List.length_eq_zero] using h2
  refine ⟨hresne, ?_, ?_⟩
  · constructor
    · intro heq hone
      have hres1 :
          newMigStrategySingleLabeler nv = ([], .ok (.migDeviceLabels res)) := by
        simp [newMigStrategySingleLabeler, h1, hlen, h3, h4, h5, h7, hone,
          newMIGDeviceLabelers]
      rw [hres1] at heq
      have := congrArg Prod.fst heq
      rw [newInvalidMigStrategyLabeler_fst] at this
      simp at this
    · intro hone
      simp [newMigStrategySingleLabeler, h1, hlen, h3, h4, h5, h7, hone]
  · constructor
    · intro hone
      have h2le : 2 ≤ res.length := by
        have : res.length ≠ 0 := by
          intro h0
          exact hresne (List.length_eq_zero.1 h0)
        omega
      exact (two_le_length_iff_two_flavors _ fs res hinv).1 h2le
    · intro hfg
      have h2le := (two_le_length_iff_two_flavors _ fs res hinv).2 hfg
      omega

theorem C8_multi_flavor_check_witness :
    ([("3g.20gb", ⟨"nvidia.com/gpu", migSub 3 20096, 7⟩)] :
      List (String × MigResource)) ≠ [] :=
  (C8_multi_flavor_check sevenMigNvml
    [plainDevice "ModelX" true [migSub 3 20096, migSub 3 20096, migSub 3 20096],
     plainDevice "ModelX" true
       [migSub 3 20096, migSub 3 20096, migSub 3 20096, migSub 3 20096]]
    [migSub 3 20096, migSub 3 20096, migSub 3 20096, migSub 3 20096,
     migSub 3 20096, migSub 3 20096, migSub 3 20096]
    ["3g.20gb", "3g.20gb", "3g.20gb", "3g.20gb", "3g.20gb", "3g.20gb", "3g.20gb"]
    [("3g.20gb", ⟨"nvidia.com/gpu", migSub 3 20096, 7⟩)]
    (by decide) (by decide) (by decide) (by decide) (by decide) (by decide) (by decide)).1

end GFD
